import Mathlib

/-!
# Verification of the nanobot core against its specification

Shallow embedding of the nanobot-rs sources (OpenAI-compatible provider,
cron service, filesystem/shell tools, tool registry, memory store, WhatsApp
bridge handler) together with proofs of the specified properties.

Effectful Rust code is embedded as pure functions over explicit state:
the file system becomes an association list from paths to contents, HTTP
becomes an explicit outcome value, and `serde_json` string-level parsing is
abstracted as a parameter function where the repository code treats it as a
black box.
-/

set_option autoImplicit false
set_option maxRecDepth 8192

/-- JSON values (`serde_json::Value`): null, booleans, integers, strings,
arrays and objects. Numeric values are modelled as integers, which covers
every numeric field the embedded code touches (`as_i64` token counters and
millisecond timestamps). -/
inductive Json where
  | null
  | bool (b : Bool)
  | num (n : Int)
  | str (s : String)
  | arr (elems : List Json)
  | obj (fields : List (String × Json))

/-- `Value::get(key)` on an object: first binding for `key`, if any
(`None` on non-objects). -/
def Json.get : Json → String → Option Json
  | .obj fields, key => (fields.find? (fun kv => kv.1 = key)).map (·.2)
  | _, _ => none

/-- `Value::as_str`. -/
def Json.asStr : Json → Option String
  | .str s => some s
  | _ => none

/-- `Value::as_array`. -/
def Json.asArr : Json → Option (List Json)
  | .arr elems => some elems
  | _ => none

/-- `Value::as_bool`. -/
def Json.asBool : Json → Option Bool
  | .bool b => some b
  | _ => none

/-- `Value::as_i64`. -/
def Json.asInt : Json → Option Int
  | .num n => some n
  | _ => none

/-- `Value::as_object`, as the list of its fields. -/
def Json.asObj : Json → Option (List (String × Json))
  | .obj fields => some fields
  | _ => none

/-- A tool call request from the LLM (`ToolCallRequest` in
`providers/base.rs`): `id`, `name`, and the parsed `arguments` map. -/
structure ToolCallRequest where
  id : String
  name : String
  arguments : List (String × Json)

/-- Response from an LLM provider (`LLMResponse` in `providers/base.rs`). -/
structure LLMResponse where
  content : Option String
  tool_calls : List ToolCallRequest
  finish_reason : String
  usage : List (String × Int)

/-- The `serde_json::from_str::<HashMap<String, Value>>` step used on the
`arguments` payload of a tool call: a black-box string parser returning the
object's bindings on success and `none` on any failure (non-JSON text, or
JSON that is not an object). The repository treats this parser as opaque
library code, so the embedding takes it as a parameter. -/
def JStrParse : Type := String → Option (List (String × Json))

/-- One iteration of the tool-call extraction loop in `parse_response`
(`providers/openai_compat.rs`, lines 199–243), for a single element `tc` of
the `tool_calls` array. -/
def parse_tool_call (jparse : JStrParse) (tc : Json) : ToolCallRequest :=
  let id := ((tc.get "id").bind Json.asStr).getD ""
  let function := (tc.get "function").getD .null
  let name := ((function.get "name").bind Json.asStr).getD ""
  let arguments_raw := (function.get "arguments").getD (.str "\x7b\x7d")
  let arguments :=
    match arguments_raw.asStr with
    | some s =>
      match jparse s with
      | some map => map
      | none => [("raw", Json.str s)]
    | none =>
      match arguments_raw.asObj with
      | some fields => fields
      | none => []
  { id := id, name := name, arguments := arguments }

/-- The `usage` extraction in `parse_response`: keep the integer-valued
fields of the `usage` object, if present. -/
def parse_usage (data : Json) : List (String × Int) :=
  match (data.get "usage").bind Json.asObj with
  | some fields => fields.filterMap (fun kv => (kv.2.asInt).map (fun n => (kv.1, n)))
  | none => []

/-- `parse_response` (`providers/openai_compat.rs`, lines 166–262): parse an
OpenAI-compatible chat-completions JSON body into an `LLMResponse`. The Rust
function returns `Result<LLMResponse>`; `Except String LLMResponse` embeds
that return type. -/
def parse_response (jparse : JStrParse) (data : Json) : Except String LLMResponse :=
  let choices := ((data.get "choices").bind Json.asArr).getD []
  match choices with
  | [] =>
    .ok { content := some "Error: No choices in LLM response"
          tool_calls := []
          finish_reason := "error"
          usage := [] }
  | choice :: _ =>
    let message := (choice.get "message").getD .null
    let finish_reason := ((choice.get "finish_reason").bind Json.asStr).getD "stop"
    let content := (message.get "content").bind Json.asStr
    let tool_calls :=
      match (message.get "tool_calls").bind Json.asArr with
      | some tcArray => tcArray.map (parse_tool_call jparse)
      | none => []
    .ok { content := content
          tool_calls := tool_calls
          finish_reason := finish_reason
          usage := parse_usage data }

/-- Outcome of the HTTP POST in `OpenAICompatProvider::chat`:
`sendErr` — `client.post(..).send()` failed;
`readErr` — a response arrived but `response.text()` failed;
`got status text parsed` — a response with the given status code and body
text arrived, where `parsed` records the outcome of
`serde_json::from_str(&response_text)` on that body. -/
inductive HttpResult where
  | sendErr (e : String)
  | readErr (e : String)
  | got (status : Nat) (text : String) (parsed : Except String Json)

/-- `reqwest::StatusCode::is_success`: 200–299. -/
def statusIsSuccess (status : Nat) : Bool :=
  200 ≤ status && status < 300

/-- An `LLMResponse` carrying only a diagnostic string, as built in every
error arm of `chat`. -/
def errorLLMResponse (diag : String) : LLMResponse :=
  { content := some diag, tool_calls := [], finish_reason := "error", usage := [] }

/-- `OpenAICompatProvider::chat` (`providers/openai_compat.rs`, lines
72–158) as a function of the HTTP outcome: every transport-level failure is
converted into an `Ok` error response; a successfully parsed body is handed
to `parse_response`. -/
def chat (jparse : JStrParse) (r : HttpResult) : Except String LLMResponse :=
  match r with
  | .sendErr e => .ok (errorLLMResponse ("Error calling LLM: " ++ e))
  | .readErr e => .ok (errorLLMResponse ("Error reading LLM response: " ++ e))
  | .got status text parsed =>
    if !statusIsSuccess status then
      .ok (errorLLMResponse
        ("Error calling LLM (HTTP " ++ toString status ++ "): " ++ text))
    else
      match parsed with
      | .error e => .ok (errorLLMResponse ("Error parsing LLM response JSON: " ++ e))
      | .ok data => parse_response jparse data

/-- The failure cases enumerated by the provider-totality clause of the
spec: HTTP send failure, body-read failure, non-success status, JSON-parse
failure, or a body whose `choices` array is empty or missing. -/
def chatErrCase (r : HttpResult) : Bool :=
  match r with
  | .sendErr _ => true
  | .readErr _ => true
  | .got status _ parsed =>
    if !statusIsSuccess status then true
    else
      match parsed with
      | .error _ => true
      | .ok data => (((data.get "choices").bind Json.asArr).getD []).isEmpty

/-! ## File-system model

Effectful file I/O is embedded as explicit state passing over an
association list from paths to file contents. A present binding models an
existing, readable file; reads of present files succeed (I/O faults such as
permission errors are outside the pure model). -/

/-- A file system: a map from paths to file contents (first binding wins). -/
structure Fs where
  files : List (String × String)
deriving DecidableEq

/-- Read a file: `some` contents when the path exists. -/
def Fs.read (fs : Fs) (path : String) : Option String :=
  (fs.files.find? (fun kv => kv.1 == path)).map (·.2)

/-- Write a file, replacing any existing binding for the path. -/
def Fs.write (fs : Fs) (path content : String) : Fs :=
  ⟨(path, content) :: fs.files.filter (fun kv => kv.1 != path)⟩

/-- Rust `str::trim`: drop whitespace from both ends. -/
def rustTrim (s : String) : String :=
  String.mk (((s.data.dropWhile Char.isWhitespace).reverse.dropWhile
    Char.isWhitespace).reverse)

/-- Rust `str::to_lowercase`, for the ASCII range the guard patterns use. -/
def rustToLower (s : String) : String :=
  String.mk (s.data.map Char.toLower)

/-- `expand_path` (`agent/tools/filesystem.rs`, lines 326–335): expand a
leading `~` to the home directory (`dirs::home_dir()`, modelled as an
optional string, with the source's `"."` fallback). -/
def expand_path (home : Option String) (path : String) : String :=
  if "~/".data.isPrefixOf path.data then
    (home.getD ".") ++ "/" ++ String.mk (path.data.drop 2)
  else if path == "~" then home.getD "."
  else path

/-- Count of non-overlapping, leftmost-first occurrences of a nonempty
pattern in a character list, as computed by Rust's
`str::matches(pat).count()`: after a match, scanning resumes past the
matched text. The extra budget argument (instantiated with the scanned
list's length) makes the recursion structural; every scan step consumes at
least one character, so the budget never runs out before the list does. -/
def countOccsList (pat : List Char) : Nat → List Char → Nat
  | 0, _ => 0
  | _ + 1, [] => 0
  | fuel + 1, c :: rest =>
    if pat.isPrefixOf (c :: rest) then
      1 + countOccsList pat fuel ((c :: rest).drop pat.length)
    else
      countOccsList pat fuel rest

/-- `content.matches(pat).count()` on strings. The empty pattern matches at
every position (Rust yields `len + 1` empty matches). -/
def countOccs (s pat : String) : Nat :=
  match pat.data with
  | [] => s.data.length + 1
  | p :: ps => countOccsList (p :: ps) s.data.length s.data

/-- `str::contains(pat)`: substring presence, equivalently at least one
occurrence under the leftmost non-overlapping scan. -/
def containsSubstr (s pat : String) : Bool :=
  countOccs s pat != 0

/-- Replace the first occurrence of `p :: ps` by `new` in a character list
(`str::replacen(old, new, 1)` for a nonempty pattern). -/
def replaceFirstList (p : Char) (ps new : List Char) : List Char → List Char
  | [] => []
  | c :: rest =>
    if (p :: ps).isPrefixOf (c :: rest) then
      new ++ rest.drop ps.length
    else
      c :: replaceFirstList p ps new rest

/-- `content.replacen(old, new, 1)` on strings (an empty pattern inserts
`new` at the start, as in Rust). -/
def replacen1 (s pat new : String) : String :=
  match pat.data with
  | [] => String.mk (new.data ++ s.data)
  | p :: ps => String.mk (replaceFirstList p ps new.data s.data)

/-- `params.get(key).and_then(|v| v.as_str())` on the parameter map of a
tool invocation. -/
def getStrParam (params : List (String × Json)) (key : String) : Option String :=
  ((params.find? (fun kv => kv.1 == key)).map (·.2)).bind Json.asStr

/-- `EditFileTool::execute` (`agent/tools/filesystem.rs`, lines 172–222):
replace `old_text` by `new_text` in the file at `path`, refusing when the
file is missing, `old_text` is absent, or `old_text` occurs more than once.
Returns the result string and the (possibly updated) file system. -/
def editFileExec (home : Option String) (params : List (String × Json)) (fs : Fs) :
    String × Fs :=
  match getStrParam params "path" with
  | none => ("Error: 'path' parameter is required", fs)
  | some path =>
  match getStrParam params "old_text" with
  | none => ("Error: 'old_text' parameter is required", fs)
  | some old_text =>
  match getStrParam params "new_text" with
  | none => ("Error: 'new_text' parameter is required", fs)
  | some new_text =>
    let file_path := expand_path home path
    match fs.read file_path with
    | none => ("Error: File not found: " ++ path, fs)
    | some content =>
      if !containsSubstr content old_text then
        ("Error: old_text not found in file. Make sure it matches exactly.", fs)
      else
        let count := countOccs content old_text
        if count > 1 then
          ("Warning: old_text appears " ++ toString count ++
            " times. Please provide more context to make it unique.", fs)
        else
          let new_content := replacen1 content old_text new_text
          ("Successfully edited " ++ path, fs.write file_path new_content)

/-! ## Memory store (`agent/memory.rs`)

The store's `memory_dir` and the current date (`today_date()`, a
`YYYY-MM-DD` string) are passed explicitly. -/

/-- `MemoryStore::get_today_file`: `memory_dir.join("<today>.md")`. -/
def get_today_file (memory_dir today : String) : String :=
  memory_dir ++ "/" ++ today ++ ".md"

/-- `MemoryStore::read_today` (`agent/memory.rs`, lines 40–47): contents of
today's file, or the empty string when it does not exist. -/
def read_today (fs : Fs) (memory_dir today : String) : String :=
  match fs.read (get_today_file memory_dir today) with
  | some c => c
  | none => ""

/-- `MemoryStore::append_today` (`agent/memory.rs`, lines 52–64): create
today's file with a `# <today>` header on first write, otherwise join the
new content to the existing content with a newline. -/
def append_today (fs : Fs) (memory_dir today content : String) : Fs :=
  let today_file := get_today_file memory_dir today
  let full_content :=
    match fs.read today_file with
    | some existing => existing ++ "\n" ++ content
    | none => ("# " ++ today ++ "\n\n") ++ content
  fs.write today_file full_content

/-! ## Tool registry (`agent/tools/registry.rs`)

The registry's `HashMap<String, Box<dyn Tool>>` is modelled as an
association list with `insert`-replaces-existing semantics; a tool is
represented by its trait-surface data. -/

/-- A registered tool, by its identifying trait data. -/
structure Tool where
  name : String
  description : String
deriving DecidableEq

/-- `ToolRegistry`: name → tool map. -/
structure ToolRegistry where
  tools : List (String × Tool)

/-- `ToolRegistry::new`. -/
def ToolRegistry.new : ToolRegistry := ⟨[]⟩

/-- `ToolRegistry::register` (lines 23–26): `HashMap::insert` keyed by
`tool.name()` — replaces any existing binding with that name. -/
def ToolRegistry.register (r : ToolRegistry) (t : Tool) : ToolRegistry :=
  ⟨(t.name, t) :: r.tools.filter (fun kv => kv.1 != t.name)⟩

/-- `ToolRegistry::unregister` (lines 29–31): `HashMap::remove`. -/
def ToolRegistry.unregister (r : ToolRegistry) (name : String) : ToolRegistry :=
  ⟨r.tools.filter (fun kv => kv.1 != name)⟩

/-- `ToolRegistry::get` (lines 34–36). -/
def ToolRegistry.get (r : ToolRegistry) (name : String) : Option Tool :=
  (r.tools.find? (fun kv => kv.1 == name)).map (·.2)

/-- `ToolRegistry::has` (lines 39–41): `HashMap::contains_key`. -/
def ToolRegistry.has (r : ToolRegistry) (name : String) : Bool :=
  r.tools.any (fun kv => kv.1 == name)

/-! ## WhatsApp bridge message handler (`channels/whatsapp.rs`) -/

/-- An inbound message on the bus. Modelled from the spec: the
`InboundMessage` record of §3 (`bus/events.rs` is not among the provided
sources) — `channel`, `chat_id`, `sender_id`, `content`, `media`,
`metadata`. -/
structure InboundMessage where
  channel : String
  chat_id : String
  sender_id : String
  content : String
  media : List String
  metadata : List (String × Json)

/-- Modelled from the spec: `InboundMessage::new(channel, chat_id, sender,
content)` constructs a message with the given fields and empty `media` and
`metadata`, as used by `_handle_bridge_message` before its `metadata`
inserts. -/
def InboundMessage.new (channel chat_id sender_id content : String) : InboundMessage :=
  ⟨channel, chat_id, sender_id, content, [], []⟩

/-- `HashMap::insert` on the metadata map (assoc-list model). -/
def metaInsert (m : List (String × Json)) (key : String) (v : Json) :
    List (String × Json) :=
  (key, v) :: m.filter (fun kv => kv.1 != key)

/-- The `InboundMessage` built by the `"message"` arm of
`_handle_bridge_message` (`channels/whatsapp.rs`, lines 83–98):
`InboundMessage::new("whatsapp", chat_id, sender, content)` followed by the
`message_id`, `timestamp` and `is_group` metadata inserts. -/
def whatsappInbound (data : Json) (chat_id sender content : String) : InboundMessage :=
  let is_group := ((data.get "isGroup").bind Json.asBool).getD false
  let msg := InboundMessage.new "whatsapp" chat_id sender content
  let msg :=
    match (data.get "id").bind Json.asStr with
    | some i => { msg with metadata := metaInsert msg.metadata "message_id" (.str i) }
    | none => msg
  let msg :=
    match data.get "timestamp" with
    | some ts => { msg with metadata := metaInsert msg.metadata "timestamp" ts }
    | none => msg
  { msg with metadata := metaInsert msg.metadata "is_group" (.bool is_group) }

/-- `WhatsAppChannel::_handle_bridge_message` (`channels/whatsapp.rs`,
lines 43–123), restricted to its observable effect on the inbound bus: the
list of `InboundMessage`s pushed by `bus_tx.send` (empty or a singleton;
the `status`/`qr`/`error`/unknown arms only log). -/
def handle_bridge_message (data : Json) (allow_from : List String) :
    List InboundMessage :=
  let msg_type := ((data.get "type").bind Json.asStr).getD ""
  if msg_type == "message" then
    let sender := ((data.get "sender").bind Json.asStr).getD ""
    let content := ((data.get "content").bind Json.asStr).getD ""
    let chat_id :=
      if sender.data.contains '@' then
        String.mk (sender.data.takeWhile (fun c => c != '@'))
      else sender
    if !allow_from.isEmpty && !(allow_from.contains chat_id)
        && !(allow_from.contains sender) then
      []
    else
      let content :=
        if content == "[Voice Message]" then
          "[Voice Message: Transcription not available for WhatsApp yet]"
        else content
      [whatsappInbound data chat_id sender content]
  else
    []

/-! ## Cron types (`cron/types.rs`) -/

/-- `CronSchedule`: `kind` is one of `"at"`, `"every"`, `"cron"`. -/
structure CronSchedule where
  kind : String
  at_ms : Option Int
  every_ms : Option Int
  expr : Option String
  tz : Option String
deriving DecidableEq

/-- `CronSchedule::default()`. -/
instance : Inhabited CronSchedule := ⟨⟨"every", none, none, none, none⟩⟩

/-- `CronPayload`. -/
structure CronPayload where
  kind : String
  message : String
  deliver : Bool
  channel : Option String
  «to» : Option String
deriving DecidableEq

/-- `CronPayload::default()`. -/
instance : Inhabited CronPayload := ⟨⟨"agent_turn", "", false, none, none⟩⟩

/-- `CronJobState`. -/
structure CronJobState where
  next_run_at_ms : Option Int
  last_run_at_ms : Option Int
  last_status : Option String
  last_error : Option String
deriving DecidableEq

/-- `CronJobState::default()`. -/
instance : Inhabited CronJobState := ⟨⟨none, none, none, none⟩⟩

/-- `CronJob`. -/
structure CronJob where
  id : String
  name : String
  enabled : Bool
  schedule : CronSchedule
  payload : CronPayload
  state : CronJobState
  created_at_ms : Int
  updated_at_ms : Int
  delete_after_run : Bool
deriving DecidableEq

/-- `CronStore`: the persisted artifact `{version, jobs}`. -/
structure CronStore where
  version : Int
  jobs : List CronJob
deriving DecidableEq

/-- `CronStore::default()`. -/
instance : Inhabited CronStore := ⟨⟨1, []⟩⟩

/-! ## Cron store serialization (`serde` derives of `cron/types.rs`)

The derives use `rename_all = "camelCase"`, `skip_serializing_if =
"Option::is_none"` on optional fields, and `#[serde(default)]` /
`default = "..."` fallbacks on deserialization. Serialization targets the
JSON value tree; the string layer (`serde_json::to_string_pretty` /
`from_str`) prints and reparses that tree unchanged and is library code
outside this repository. -/

/-- Emit an optional integer field (omitted when `none`). -/
def optIntField (key : String) : Option Int → List (String × Json)
  | some n => [(key, .num n)]
  | none => []

/-- Emit an optional string field (omitted when `none`). -/
def optStrField (key : String) : Option String → List (String × Json)
  | some s => [(key, .str s)]
  | none => []

/-- Deserialize an `Option<i64>` field: missing or `null` → `none`; a
number → `some`; anything else is a type error (outer `none`). -/
def readOptInt (j : Json) (key : String) : Option (Option Int) :=
  match j.get key with
  | none => some none
  | some .null => some none
  | some (.num n) => some (some n)
  | some _ => none

/-- Deserialize an `Option<String>` field. -/
def readOptStr (j : Json) (key : String) : Option (Option String) :=
  match j.get key with
  | none => some none
  | some .null => some none
  | some (.str s) => some (some s)
  | some _ => none

/-- Deserialize a `String` field carrying a `#[serde(default = ...)]`. -/
def readDefStr (j : Json) (key dflt : String) : Option String :=
  match j.get key with
  | none => some dflt
  | some v => v.asStr

/-- Deserialize a `bool` field carrying a default. -/
def readDefBool (j : Json) (key : String) (dflt : Bool) : Option Bool :=
  match j.get key with
  | none => some dflt
  | some v => v.asBool

/-- Deserialize an `i64`/`i32` field carrying a default. -/
def readDefInt (j : Json) (key : String) (dflt : Int) : Option Int :=
  match j.get key with
  | none => some dflt
  | some v => v.asInt

/-- Serialize a `CronSchedule`. -/
def CronSchedule.toJson (s : CronSchedule) : Json :=
  .obj ([("kind", .str s.kind)]
    ++ optIntField "atMs" s.at_ms
    ++ optIntField "everyMs" s.every_ms
    ++ optStrField "expr" s.expr
    ++ optStrField "tz" s.tz)

/-- Deserialize a `CronSchedule` (`kind` is required). -/
def CronSchedule.fromJson (j : Json) : Option CronSchedule := do
  let kind ← (j.get "kind").bind Json.asStr
  let at_ms ← readOptInt j "atMs"
  let every_ms ← readOptInt j "everyMs"
  let expr ← readOptStr j "expr"
  let tz ← readOptStr j "tz"
  pure ⟨kind, at_ms, every_ms, expr, tz⟩

/-- Serialize a `CronPayload`. -/
def CronPayload.toJson (p : CronPayload) : Json :=
  .obj ([("kind", .str p.kind), ("message", .str p.message),
         ("deliver", .bool p.deliver)]
    ++ optStrField "channel" p.channel
    ++ optStrField "to" p.«to»)

/-- Deserialize a `CronPayload` (`kind` defaults to `"agent_turn"`,
`message` and `deliver` to their `Default` values). -/
def CronPayload.fromJson (j : Json) : Option CronPayload := do
  let kind ← readDefStr j "kind" "agent_turn"
  let message ← readDefStr j "message" ""
  let deliver ← readDefBool j "deliver" false
  let channel ← readOptStr j "channel"
  let «to» ← readOptStr j "to"
  pure ⟨kind, message, deliver, channel, «to»⟩

/-- Serialize a `CronJobState`. -/
def CronJobState.toJson (s : CronJobState) : Json :=
  .obj (optIntField "nextRunAtMs" s.next_run_at_ms
    ++ optIntField "lastRunAtMs" s.last_run_at_ms
    ++ optStrField "lastStatus" s.last_status
    ++ optStrField "lastError" s.last_error)

/-- Deserialize a `CronJobState` (all fields optional). -/
def CronJobState.fromJson (j : Json) : Option CronJobState := do
  let next_run_at_ms ← readOptInt j "nextRunAtMs"
  let last_run_at_ms ← readOptInt j "lastRunAtMs"
  let last_status ← readOptStr j "lastStatus"
  let last_error ← readOptStr j "lastError"
  pure ⟨next_run_at_ms, last_run_at_ms, last_status, last_error⟩

/-- Serialize a `CronJob`. -/
def CronJob.toJson (job : CronJob) : Json :=
  .obj [("id", .str job.id), ("name", .str job.name),
        ("enabled", .bool job.enabled),
        ("schedule", job.schedule.toJson),
        ("payload", job.payload.toJson),
        ("state", job.state.toJson),
        ("createdAtMs", .num job.created_at_ms),
        ("updatedAtMs", .num job.updated_at_ms),
        ("deleteAfterRun", .bool job.delete_after_run)]

/-- Deserialize a `CronJob` (`id`/`name` required; `enabled` defaults to
`true`; `schedule`, `payload`, `state` and the remaining fields default). -/
def CronJob.fromJson (j : Json) : Option CronJob := do
  let id ← (j.get "id").bind Json.asStr
  let name ← (j.get "name").bind Json.asStr
  let enabled ← readDefBool j "enabled" true
  let schedule ←
    match j.get "schedule" with
    | none => some default
    | some v => CronSchedule.fromJson v
  let payload ←
    match j.get "payload" with
    | none => some default
    | some v => CronPayload.fromJson v
  let state ←
    match j.get "state" with
    | none => some default
    | some v => CronJobState.fromJson v
  let created_at_ms ← readDefInt j "createdAtMs" 0
  let updated_at_ms ← readDefInt j "updatedAtMs" 0
  let delete_after_run ← readDefBool j "deleteAfterRun" false
  pure ⟨id, name, enabled, schedule, payload, state, created_at_ms,
        updated_at_ms, delete_after_run⟩

/-- Serialize a `CronStore`. -/
def CronStore.toJson (store : CronStore) : Json :=
  .obj [("version", .num store.version),
        ("jobs", .arr (store.jobs.map CronJob.toJson))]

/-- Deserialize a sequence of jobs; any element failure fails the whole
sequence, as in serde. -/
def parseJobs : List Json → Option (List CronJob)
  | [] => some []
  | j :: rest => do
    let job ← CronJob.fromJson j
    let tail ← parseJobs rest
    pure (job :: tail)

/-- Deserialize a `CronStore` (`version` defaults to `1`, `jobs` to `[]`;
every element of `jobs` must deserialize). -/
def CronStore.fromJson (j : Json) : Option CronStore := do
  let version ← readDefInt j "version" 1
  let jobs ←
    match j.get "jobs" with
    | none => some []
    | some v => (v.asArr).bind parseJobs
  pure ⟨version, jobs⟩

/-! ## Cron service (`cron/service.rs`)

The wall clock (`now_ms()`) and the generated UUID string
(`Uuid::new_v4().to_string()`) are nondeterministic inputs of the Rust
code and are passed explicitly. The persisted file holds the serialized
store as a JSON value. -/

/-- A file system holding JSON documents (path → parsed contents). -/
structure JFs where
  files : List (String × Json)

/-- Read a JSON file. -/
def JFs.read (fs : JFs) (path : String) : Option Json :=
  (fs.files.find? (fun kv => kv.1 == path)).map (·.2)

/-- Write a JSON file, replacing any existing binding for the path. -/
def JFs.write (fs : JFs) (path : String) (content : Json) : JFs :=
  ⟨(path, content) :: fs.files.filter (fun kv => kv.1 != path)⟩

/-- The cron service: store path, in-memory store, running flag. -/
structure CronService where
  store_path : String
  store : CronStore
  running : Bool

/-- `CronService::new` (`cron/service.rs`, lines 24–38): load the store
from the path; a missing or malformed file yields the default store. -/
def CronService.new (fs : JFs) (store_path : String) : CronService :=
  let store :=
    match fs.read store_path with
    | some j => (CronStore.fromJson j).getD default
    | none => default
  ⟨store_path, store, false⟩

/-- `CronService::persist` (`cron/service.rs`, lines 138–147), effect on
the stored file: the whole store is serialized and written to the store
path. -/
def CronService.persist (svc : CronService) (fs : JFs) : JFs :=
  fs.write svc.store_path svc.store.toJson

/-- `CronService::add_job` (`cron/service.rs`, lines 55–91). `now` is
`now_ms()`, `uuid` the freshly generated UUID string; the public id is its
first 8 characters. Returns the new job, the updated service, and the file
system after `persist`. -/
def CronService.add_job (svc : CronService) (fs : JFs) (now : Int) (uuid : String)
    (name : String) (schedule : CronSchedule) (message : String) (deliver : Bool)
    (channel «to» : Option String) (delete_after_run : Bool) :
    CronJob × CronService × JFs :=
  let short_id := String.mk (uuid.data.take 8)
  let job : CronJob :=
    { id := short_id
      name := name
      enabled := true
      schedule := schedule
      payload :=
        { kind := "agent_turn", message := message, deliver := deliver,
          channel := channel, «to» := «to» }
      state := default
      created_at_ms := now
      updated_at_ms := now
      delete_after_run := delete_after_run }
  let svc' := { svc with store := { svc.store with jobs := svc.store.jobs ++ [job] } }
  (job, svc', svc'.persist fs)

/-- `CronService::remove_job` (`cron/service.rs`, lines 108–117): retain
jobs with a different id; persist only when something was removed. -/
def CronService.remove_job (svc : CronService) (fs : JFs) (job_id : String) :
    Bool × CronService × JFs :=
  let jobs' := svc.store.jobs.filter (fun j => j.id != job_id)
  if jobs'.length < svc.store.jobs.length then
    let svc' := { svc with store := { svc.store with jobs := jobs' } }
    (true, svc', svc'.persist fs)
  else
    (false, svc, fs)

/-- The `iter_mut().find` + update of `enable_job`: toggle the first job
with the given id, returning the updated job and list. -/
def setFirstEnabled (jobs : List CronJob) (job_id : String) (enabled : Bool)
    (now : Int) : Option (CronJob × List CronJob) :=
  match jobs with
  | [] => none
  | j :: rest =>
    if j.id == job_id then
      let j' := { j with enabled := enabled, updated_at_ms := now }
      some (j', j' :: rest)
    else
      (setFirstEnabled rest job_id enabled now).map (fun r => (r.1, j :: r.2))

/-- `CronService::enable_job` (`cron/service.rs`, lines 120–127): `now` is
`now_ms()`. -/
def CronService.enable_job (svc : CronService) (fs : JFs) (job_id : String)
    (enabled : Bool) (now : Int) : Option CronJob × CronService × JFs :=
  match setFirstEnabled svc.store.jobs job_id enabled now with
  | none => (none, svc, fs)
  | some (result, jobs') =>
    let svc' := { svc with store := { svc.store with jobs := jobs' } }
    (some result, svc', svc'.persist fs)

/-! ## Persist as a trace of file-system operations

To settle the atomicity clause, `CronService::persist` is also embedded at
the level of the sequence of file-system calls it issues. -/

/-- A file-system call made by persistence code. -/
inductive FsOp where
  | createDirAll (path : String)
  | writeFile (path : String) (content : String)
  | renameFile (src dst : String)
deriving DecidableEq

/-- `Path::parent` of a path string: everything before the last `/`
component (the empty string for a bare file name, matching
`Path::new("jobs.json").parent() == Some("")`). -/
def parentDir (path : String) : String :=
  String.intercalate "/" (path.splitOn "/").dropLast

/-- The file-system calls of `CronService::persist` (`cron/service.rs`,
lines 138–147), given the pretty-printed JSON text: create the parent
directory, then one direct `std::fs::write` to the store path. -/
def persistOps (store_path : String) (json : String) : List FsOp :=
  [.createDirAll (parentDir store_path), .writeFile store_path json]

/-- Whether an operation trace ever renames some file onto `path` — the
defining step of a write-then-rename (atomic replace) of `path`. -/
def renamesOnto (ops : List FsOp) (path : String) : Bool :=
  ops.any (fun op =>
    match op with
    | .renameFile _ dst => dst == path
    | _ => false)

/-- Contents observable by a reader concurrent with a non-atomic
`std::fs::write` of `content`: the write truncates the file and then
appends the bytes, so every intermediate state is a left piece of the final
contents. -/
def writeObservables (content : String) : List String :=
  (List.range (content.length + 1)).map (fun k => String.mk (content.data.take k))

/-! ## Shell exec tool (`agent/tools/shell.rs`)

A configured regex pattern is embedded as the outcome of `Regex::new`: a
match function on success, `none` on a compile failure. The
workspace-restriction path check (lines 95–122) calls
`Path::canonicalize`, which consults the real file system; it is abstracted
as the parameter `wsCheck`. -/

/-- The outcome of compiling one configured pattern string. -/
def RePattern : Type := Option (String → Bool)

/-- Whether any pattern in the list matches the text, skipping patterns
whose compilation failed — the shape of both the deny loop
(`if let Ok(re) = Regex::new(p) { re.is_match(..) }`) and the allow check
(`Regex::new(p).map(..).unwrap_or(false)`). -/
def patternsMatch (pats : List RePattern) (text : String) : Bool :=
  pats.any (fun p =>
    match p with
    | some re => re text
    | none => false)

/-- `ExecTool::guard_command` (`agent/tools/shell.rs`, lines 57–126): deny
patterns are checked first against the lowercased trimmed command, then the
allow-list (when nonempty), then the workspace restriction. -/
def guard_command (deny allow : List RePattern) (restrict_to_workspace : Bool)
    (wsCheck : String → String → Option String) (command cwd : String) :
    Option String :=
  let cmd := rustTrim command
  let lower := rustToLower cmd
  if patternsMatch deny lower then
    some "Error: Command blocked by safety guard (dangerous pattern detected)"
  else if !allow.isEmpty && !patternsMatch allow lower then
    some "Error: Command blocked by safety guard (not in allowlist)"
  else if restrict_to_workspace then
    if containsSubstr cmd "../" || containsSubstr cmd "..\\" then
      some "Error: Command blocked by safety guard (path traversal detected)"
    else
      wsCheck cmd cwd
  else
    none

/-- Result of running the spawned `sh -c` process (the body of the
`tokio::time::timeout` block in `ExecTool::execute`). -/
inductive ExecOutcome where
  | completed (stdout stderr : String) (success : Bool) (code : Option Int)
  | spawnErr (e : String)
  | timedOut

/-- Assembly of the output string (`agent/tools/shell.rs`, lines 190–226):
stdout, a labelled stderr block when nonblank, an exit-code line on
failure; `(no output)` when all parts are empty; the timeout and spawn
errors of the surrounding match. -/
def assembleExecOutput (outcome : ExecOutcome) (timeout : Nat) : String :=
  match outcome with
  | .completed stdout stderr success code =>
    let parts :=
      (if stdout != "" then [stdout] else [])
        ++ (if rustTrim stderr != "" then ["STDERR:\n" ++ stderr] else [])
        ++ (if !success then ["\nExit code: " ++ toString (code.getD (-1))] else [])
    if parts.isEmpty then "(no output)" else String.intercalate "\n" parts
  | .spawnErr e => "Error executing command: " ++ e
  | .timedOut => "Error: Command timed out after " ++ toString timeout ++ " seconds"

/-- Rust `String::truncate(n)`: shorten to the first `n` characters. -/
def rustTruncate (s : String) (n : Nat) : String :=
  String.mk (s.data.take n)

/-- The final truncation step of `ExecTool::execute`
(`agent/tools/shell.rs`, lines 228–236): output longer than 10000
characters is cut to 10000 characters and a `(truncated, N more chars)`
suffix reporting the number of removed characters is appended. -/
def truncateExecOutput (output : String) : String :=
  let max_len := 10000
  if output.length > max_len then
    let overflow := output.length - max_len
    (rustTruncate output max_len)
      ++ ("\n... (truncated, " ++ toString overflow ++ " more chars)")
  else
    output

/-- `ExecTool::execute` (`agent/tools/shell.rs`, lines 156–237) for a given
resolved command, working directory and process outcome: a guard refusal is
returned as-is; otherwise the assembled output is truncated. -/
def execExecute (deny allow : List RePattern) (restrict_to_workspace : Bool)
    (wsCheck : String → String → Option String) (timeout : Nat)
    (command cwd : String) (outcome : ExecOutcome) : String :=
  match guard_command deny allow restrict_to_workspace wsCheck command cwd with
  | some error => error
  | none => truncateExecOutput (assembleExecOutput outcome timeout)

/-! ## Theorems -/

/-- C1: the provider's chat operation is total: for every HTTP send
failure, body-read failure, non-success HTTP status, JSON-parse failure, or
response with an empty `choices` array, `chat` returns an `LLMResponse`
value (never a thrown failure) whose `finish_reason` is `"error"`, whose
`content` is `Some` diagnostic string, and whose `tool_calls` list is
empty. -/
theorem chat_total_error_shape (jparse : JStrParse) (r : HttpResult) :
    ∃ resp, chat jparse r = .ok resp ∧
      (chatErrCase r = true →
        resp.finish_reason = "error" ∧ resp.content.isSome = true ∧
          resp.tool_calls = []) := by
  cases r with
  | sendErr e =>
    exact ⟨errorLLMResponse ("Error calling LLM: " ++ e), rfl,
      fun _ => ⟨rfl, rfl, rfl⟩⟩
  | readErr e =>
    exact ⟨errorLLMResponse ("Error reading LLM response: " ++ e), rfl,
      fun _ => ⟨rfl, rfl, rfl⟩⟩
  | got status text parsed =>
    rcases hss : statusIsSuccess status with _ | _
    · refine ⟨errorLLMResponse ("Error calling LLM (HTTP " ++ toString status ++ "): " ++ text),
        ?_, fun _ => ⟨rfl, rfl, rfl⟩⟩
      simp [chat, hss]
    · cases parsed with
      | error e =>
        refine ⟨errorLLMResponse ("Error parsing LLM response JSON: " ++ e),
          ?_, fun _ => ⟨rfl, rfl, rfl⟩⟩
        simp [chat, hss]
      | ok data =>
        have hchat : chat jparse (.got status text (.ok data)) =
            parse_response jparse data := by
          simp [chat, hss]
        rcases hc : ((data.get "choices").bind Json.asArr).getD [] with _ | ⟨choice, rest⟩
        · refine ⟨⟨some "Error: No choices in LLM response", [], "error", []⟩,
            ?_, fun _ => ⟨rfl, rfl, rfl⟩⟩
          rw [hchat]
          unfold parse_response
          rw [hc]
        · obtain ⟨resp, hresp⟩ : ∃ resp, parse_response jparse data = .ok resp := by
            unfold parse_response
            rw [hc]
            exact ⟨_, rfl⟩
          refine ⟨resp, hchat.trans hresp, fun hcase => absurd hcase ?_⟩
          simp [chatErrCase, hss, hc]

/-- Witness for C1 at a concrete send failure. -/
theorem chat_total_error_shape_witness :
    ∃ resp, chat (fun _ => none) (.sendErr "connection refused") = .ok resp ∧
      resp.finish_reason = "error" ∧ resp.content.isSome = true ∧
        resp.tool_calls = [] := by
  obtain ⟨resp, h1, h2⟩ :=
    chat_total_error_shape (fun _ => none) (.sendErr "connection refused")
  exact ⟨resp, h1, h2 rfl⟩

/-- C7: when parsing an LLM response, a tool call whose
`function.arguments` field is a string that fails to parse as a JSON
object yields an arguments map holding the raw text under key `"raw"`;
when the string parses as a JSON object, the arguments map equals the
parsed object. -/
theorem tool_call_raw_arguments (jparse : JStrParse) (tc : Json) (s : String)
    (h : (((tc.get "function").getD .null).get "arguments").getD (.str "\x7b\x7d")
      = Json.str s) :
    (jparse s = none →
      (parse_tool_call jparse tc).arguments = [("raw", Json.str s)]) ∧
    (∀ m, jparse s = some m → (parse_tool_call jparse tc).arguments = m) := by
  constructor
  · intro hp
    simp [parse_tool_call, h, Json.asStr, hp]
  · intro m hp
    simp [parse_tool_call, h, Json.asStr, hp]

/-- Witness for C7: a concrete tool call carrying non-JSON argument text,
under a parser that rejects it. -/
theorem tool_call_raw_arguments_witness :
    (parse_tool_call (fun _ => none)
        (.obj [("id", .str "t1"),
               ("function", .obj [("name", .str "echo"),
                                  ("arguments", .str "not json")])])).arguments
      = [("raw", Json.str "not json")] := by
  exact (tool_call_raw_arguments (fun _ => none)
    (.obj [("id", .str "t1"),
           ("function", .obj [("name", .str "echo"),
                              ("arguments", .str "not json")])])
    "not json" rfl).1 rfl

/-- Filtering for a key after filtering it away yields nothing. -/
theorem filter_beq_of_filter_bne {α : Type} (l : List (String × α)) (n : String) :
    (l.filter (fun kv => kv.1 != n)).filter (fun kv => kv.1 == n) = [] := by
  induction l with
  | nil => rfl
  | cons kv rest ih =>
    cases hb : kv.1 == n <;> simp [List.filter_cons, bne, hb, ih]

/-- No entry with key `n` survives filtering `n` away. -/
theorem any_beq_of_filter_bne {α : Type} (l : List (String × α)) (n : String) :
    (l.filter (fun kv => kv.1 != n)).any (fun kv => kv.1 == n) = false := by
  induction l with
  | nil => rfl
  | cons kv rest ih =>
    cases hb : kv.1 == n <;> simp [List.filter_cons, bne, hb, ih]

/-- C4: for every registry state and tools with equal names, registering
both leaves exactly one tool under that name and the later registration
wins; `has` is true right after `register` of a tool with that name and
false right after `unregister` of the name. -/
theorem registry_register_has_unregister :
    (∀ (r : ToolRegistry) (t₁ t₂ : Tool), t₁.name = t₂.name →
      ((((r.register t₁).register t₂).tools.filter
          (fun kv => kv.1 == t₁.name)).length = 1 ∧
        ((r.register t₁).register t₂).get t₁.name = some t₂)) ∧
    (∀ (r : ToolRegistry) (t : Tool), (r.register t).has t.name = true) ∧
    (∀ (r : ToolRegistry) (n : String), (r.unregister n).has n = false) := by
  refine ⟨fun r t₁ t₂ h => ⟨?_, ?_⟩, fun r t => ?_, fun r n => ?_⟩
  · have hcons : ((r.register t₁).register t₂).tools
        = (t₂.name, t₂) :: ((r.register t₁).tools.filter (fun kv => kv.1 != t₂.name)) := rfl
    rw [h, hcons]
    simp [List.filter_cons, filter_beq_of_filter_bne]
  · have hcons : ((r.register t₁).register t₂).tools
        = (t₂.name, t₂) :: ((r.register t₁).tools.filter (fun kv => kv.1 != t₂.name)) := rfl
    rw [h]
    unfold ToolRegistry.get
    rw [hcons]
    simp [List.find?]
  · simp [ToolRegistry.register, ToolRegistry.has]
  · simp [ToolRegistry.unregister, ToolRegistry.has, any_beq_of_filter_bne]

/-- Witness for C4 on a concrete registry: two tools named `"echo"`. -/
theorem registry_register_has_unregister_witness :
    ((((ToolRegistry.new.register ⟨"echo", "first"⟩).register
        ⟨"echo", "second"⟩).tools.filter
          (fun kv => kv.1 == "echo")).length = 1 ∧
      ((ToolRegistry.new.register ⟨"echo", "first"⟩).register
        ⟨"echo", "second"⟩).get "echo" = some ⟨"echo", "second"⟩) ∧
    (ToolRegistry.new.register ⟨"echo", "first"⟩).has "echo" = true ∧
    (ToolRegistry.new.unregister "echo").has "echo" = false := by
  have h := registry_register_has_unregister
  exact ⟨h.1 ToolRegistry.new ⟨"echo", "first"⟩ ⟨"echo", "second"⟩ rfl,
    h.2.1 ToolRegistry.new ⟨"echo", "first"⟩, h.2.2 ToolRegistry.new "echo"⟩

/-- Reading back a just-written file. -/
theorem fs_read_write (fs : Fs) (p c : String) : (fs.write p c).read p = some c := by
  simp [Fs.read, Fs.write, List.find?]

/-- C5: starting from a day with no daily file, `append_today "a"` then
`append_today "b"` makes `read_today` return the header `# <today>`
followed by a blank line, then `a`, a newline, and `b` — the header is
created on the first append and the second append joins with a leading
newline, so the result begins with `"# <today>\n\n"` and `a` occurs before
`b`. -/
theorem memory_append_today_header (fs : Fs) (dir today a b : String)
    (h : fs.read (get_today_file dir today) = none) :
    read_today (append_today (append_today fs dir today a) dir today b) dir today
      = "# " ++ today ++ "\n\n" ++ a ++ "\n" ++ b ∧
    ∃ tail,
      read_today (append_today (append_today fs dir today a) dir today b) dir today
        = ("# " ++ today ++ "\n\n") ++ tail := by
  have h1 : append_today fs dir today a
      = fs.write (get_today_file dir today) ("# " ++ today ++ "\n\n" ++ a) := by
    simp [append_today, h]
  have hr : (append_today fs dir today a).read (get_today_file dir today)
      = some ("# " ++ today ++ "\n\n" ++ a) := by
    rw [h1]
    exact fs_read_write fs _ _
  have h3 : read_today (append_today (append_today fs dir today a) dir today b) dir today
      = "# " ++ today ++ "\n\n" ++ a ++ "\n" ++ b := by
    generalize hg : append_today fs dir today a = g at hr
    simp [read_today, append_today, hr, fs_read_write]
  exact ⟨h3, a ++ "\n" ++ b, by rw [h3]; simp [String.append_assoc]⟩

/-- Witness for C5 on an empty file system with concrete date and notes. -/
theorem memory_append_today_header_witness :
    read_today (append_today (append_today ⟨[]⟩ "memory" "2026-10-12" "a")
        "memory" "2026-10-12" "b") "memory" "2026-10-12"
      = "# " ++ "2026-10-12" ++ "\n\n" ++ "a" ++ "\n" ++ "b" := by
  exact (memory_append_today_header ⟨[]⟩ "memory" "2026-10-12" "a" "b" rfl).1

/-- C3: whenever the target file's content contains `old_text` more than
once, `edit_file` returns a warning naming the occurrence count and leaves
the file system unchanged (no write is performed). -/
theorem edit_file_warns_on_multiple (home : Option String)
    (path old_text new_text : String) (fs : Fs) (content : String)
    (hread : fs.read (expand_path home path) = some content)
    (hcount : countOccs content old_text > 1) :
    editFileExec home
        [("path", .str path), ("old_text", .str old_text),
         ("new_text", .str new_text)] fs
      = ("Warning: old_text appears " ++ toString (countOccs content old_text) ++
          " times. Please provide more context to make it unique.", fs) := by
  have hp : getStrParam
      [("path", Json.str path), ("old_text", .str old_text),
       ("new_text", .str new_text)] "path" = some path := rfl
  have ho : getStrParam
      [("path", Json.str path), ("old_text", .str old_text),
       ("new_text", .str new_text)] "old_text" = some old_text := rfl
  have hn : getStrParam
      [("path", Json.str path), ("old_text", .str old_text),
       ("new_text", .str new_text)] "new_text" = some new_text := rfl
  have hne : countOccs content old_text ≠ 0 := by omega
  have hcon : containsSubstr content old_text = true := by
    simp [containsSubstr, hne]
  simp [editFileExec, hp, ho, hn, hread, hcon, hcount]

/-- Witness for C3: a file containing `"foo"` twice. -/
theorem edit_file_warns_on_multiple_witness :
    editFileExec none
        [("path", .str "f.txt"), ("old_text", .str "foo"),
         ("new_text", .str "bar")] ⟨[("f.txt", "foo x foo")]⟩
      = ("Warning: old_text appears 2 times. Please provide more context to make it unique.",
         ⟨[("f.txt", "foo x foo")]⟩) := by
  have h := edit_file_warns_on_multiple none "f.txt" "foo" "bar"
    ⟨[("f.txt", "foo x foo")]⟩ "foo x foo" rfl (by decide)
  rw [h]
  decide

/-- The message built from a bridge frame always carries channel
`"whatsapp"`. -/
theorem whatsappInbound_channel (data : Json) (c s t : String) :
    (whatsappInbound data c s t).channel = "whatsapp" := by
  unfold whatsappInbound
  cases (data.get "id").bind Json.asStr <;> cases data.get "timestamp" <;> rfl

/-- C6: for a bridge frame of type `"message"` with a nonempty `allow_from`
list, the handler emits no bus event when neither the raw sender JID nor
the derived chat id appears in the list, and emits exactly one
`InboundMessage` with channel `"whatsapp"` when either appears. -/
theorem whatsapp_allow_list_filter (data : Json) (allow : List String)
    (sender chat_id : String)
    (hty : ((data.get "type").bind Json.asStr).getD "" = "message")
    (hs : sender = ((data.get "sender").bind Json.asStr).getD "")
    (hc : chat_id = (if sender.data.contains '@' then
        String.mk (sender.data.takeWhile (fun c => c != '@'))
      else sender))
    (hne : allow ≠ []) :
    (chat_id ∉ allow → sender ∉ allow →
      handle_bridge_message data allow = []) ∧
    (chat_id ∈ allow ∨ sender ∈ allow →
      ∃ m, handle_bridge_message data allow = [m] ∧ m.channel = "whatsapp") := by
  have hae : allow.isEmpty = false := by
    cases allow with
    | nil => exact absurd rfl hne
    | cons a l => rfl
  subst hs
  subst hc
  constructor
  · intro h1 h2
    simp [handle_bridge_message, hty, hae]
    exact ⟨by simpa using h1, by simpa using h2⟩
  · intro hmem
    have hcont : handle_bridge_message data allow
        = [whatsappInbound data
            (if (((data.get "sender").bind Json.asStr).getD "").data.contains '@' then
              String.mk ((((data.get "sender").bind Json.asStr).getD
                "").data.takeWhile (fun c => c != '@'))
            else ((data.get "sender").bind Json.asStr).getD "")
            (((data.get "sender").bind Json.asStr).getD "")
            (if (((data.get "content").bind Json.asStr).getD "")
                == "[Voice Message]" then
              "[Voice Message: Transcription not available for WhatsApp yet]"
            else ((data.get "content").bind Json.asStr).getD "")] := by
      rcases hmem with h | h <;> (try simp at h) <;>
        simp [handle_bridge_message, hty, hae, h]
    exact ⟨_, hcont, whatsappInbound_channel _ _ _ _⟩

/-- Witness for C6: `allow_from = ["123"]` and sender
`"999@s.whatsapp.net"` produce zero bus events. -/
theorem whatsapp_allow_list_filter_witness :
    handle_bridge_message
      (.obj [("type", .str "message"), ("sender", .str "999@s.whatsapp.net"),
             ("content", .str "hi")]) ["123"] = [] := by
  exact (whatsapp_allow_list_filter
    (.obj [("type", .str "message"), ("sender", .str "999@s.whatsapp.net"),
           ("content", .str "hi")])
    ["123"] "999@s.whatsapp.net" "999" rfl rfl (by decide)
    (by decide)).1 (by decide) (by decide)

/-- C9: for every invocation of the exec tool that passes the safety guard,
the command-output portion of the returned string is bounded: output of at
most 10000 characters is returned unmodified, and longer output is
truncated to exactly 10000 characters followed by the
`"\n... (truncated, <N> more chars)"` suffix, `N` being the number of
characters removed. -/
theorem exec_output_bounded (deny allow : List RePattern) (restrict : Bool)
    (wsCheck : String → String → Option String) (timeout : Nat)
    (command cwd : String) (outcome : ExecOutcome)
    (hguard : guard_command deny allow restrict wsCheck command cwd = none) :
    (¬ (assembleExecOutput outcome timeout).length > 10000 →
      execExecute deny allow restrict wsCheck timeout command cwd outcome
        = assembleExecOutput outcome timeout) ∧
    ((assembleExecOutput outcome timeout).length > 10000 →
      execExecute deny allow restrict wsCheck timeout command cwd outcome
        = rustTruncate (assembleExecOutput outcome timeout) 10000
          ++ ("\n... (truncated, "
            ++ toString ((assembleExecOutput outcome timeout).length - 10000)
            ++ " more chars)")
        ∧ (rustTruncate (assembleExecOutput outcome timeout) 10000).length
            = 10000) := by
  have h1 : execExecute deny allow restrict wsCheck timeout command cwd outcome
      = truncateExecOutput (assembleExecOutput outcome timeout) := by
    simp [execExecute, hguard]
  constructor
  · intro h
    rw [h1]
    simp [truncateExecOutput, h]
  · intro h
    refine ⟨by rw [h1]; simp [truncateExecOutput, h], ?_⟩
    have hlen : (assembleExecOutput outcome timeout).data.length > 10000 := h
    simp only [rustTruncate, String.length, List.length_take]
    omega

/-- Witness for C9: 10001 characters of stdout get truncated. -/
theorem exec_output_bounded_witness :
    execExecute [] [] false (fun _ _ => none) 60 "seq 1 100000" "."
        (.completed (String.mk (List.replicate 10001 'a')) "" true none)
      = rustTruncate (assembleExecOutput
          (.completed (String.mk (List.replicate 10001 'a')) "" true none) 60) 10000
        ++ ("\n... (truncated, "
          ++ toString ((assembleExecOutput
              (.completed (String.mk (List.replicate 10001 'a')) "" true none)
                60).length - 10000)
          ++ " more chars)")
      ∧ (rustTruncate (assembleExecOutput
          (.completed (String.mk (List.replicate 10001 'a')) "" true none) 60)
            10000).length = 10000 := by
  have hne : String.mk (List.replicate 10001 'a') ≠ "" := by
    intro heq
    have hd : (List.replicate 10001 'a').length = ("".data).length :=
      congrArg (fun s => s.data.length) heq
    rw [List.length_replicate] at hd
    rw [show ("".data) = [] from rfl] at hd
    exact absurd hd (by decide)
  have hbne : (String.mk (List.replicate 10001 'a') != "") = true :=
    bne_iff_ne.mpr hne
  have hassemble : assembleExecOutput
      (.completed (String.mk (List.replicate 10001 'a')) "" true none) 60
      = String.mk (List.replicate 10001 'a') := by
    simp only [assembleExecOutput, hbne]
    rfl
  have hlen : (assembleExecOutput
      (.completed (String.mk (List.replicate 10001 'a')) "" true none) 60).length
      > 10000 := by
    rw [hassemble,
      show (String.mk (List.replicate 10001 'a')).length
        = (List.replicate 10001 'a').length from rfl,
      List.length_replicate]
    decide
  exact (exec_output_bounded [] [] false (fun _ _ => none) 60 "seq 1 100000" "."
    (.completed (String.mk (List.replicate 10001 'a')) "" true none) rfl).2 hlen

/-- C10: deny patterns take precedence over the allow-list — a command
whose lowercased trimmed text matches any deny pattern is blocked with the
dangerous-pattern message regardless of the allow-list — and both deny and
allow matching are performed on the lowercased trimmed command. -/
theorem guard_deny_wins (deny allow : List RePattern) (restrict : Bool)
    (wsCheck : String → String → Option String) (command cwd : String) :
    (patternsMatch deny (rustToLower (rustTrim command)) = true →
      guard_command deny allow restrict wsCheck command cwd
        = some "Error: Command blocked by safety guard (dangerous pattern detected)") ∧
    (patternsMatch deny (rustToLower (rustTrim command)) = false →
      allow ≠ [] →
      patternsMatch allow (rustToLower (rustTrim command)) = false →
      guard_command deny allow restrict wsCheck command cwd
        = some "Error: Command blocked by safety guard (not in allowlist)") := by
  constructor
  · intro h
    simp [guard_command, h]
  · intro h hne hallow
    have hae : allow.isEmpty = false := by
      cases allow with
      | nil => exact absurd rfl hne
      | cons a l => rfl
    simp [guard_command, h, hae, hallow]

/-- Witness for C10: a mixed-case, padded `rm -rf` command is blocked by
the deny pattern even though the configured allow pattern matches it. -/
theorem guard_deny_wins_witness :
    patternsMatch [some (fun s => s == "rm -rf /tmp")]
        (rustToLower (rustTrim "  RM -rf /tmp  ")) = true ∧
    patternsMatch [some (fun _ => true)]
        (rustToLower (rustTrim "  RM -rf /tmp  ")) = true ∧
    guard_command [some (fun s => s == "rm -rf /tmp")] [some (fun _ => true)]
        true (fun _ _ => none) "  RM -rf /tmp  " "/workspace"
      = some "Error: Command blocked by safety guard (dangerous pattern detected)" := by
  refine ⟨by decide, by decide, ?_⟩
  exact (guard_deny_wins [some (fun s => s == "rm -rf /tmp")]
    [some (fun _ => true)] true (fun _ _ => none) "  RM -rf /tmp  "
    "/workspace").1 (by decide)

/-- Reading back a just-written JSON file. -/
theorem jfs_read_write (fs : JFs) (p : String) (c : Json) :
    (fs.write p c).read p = some c := by
  simp [JFs.read, JFs.write, List.find?]

/-- Serialization round trip for `CronSchedule`. -/
theorem cronSchedule_fromJson_toJson (s : CronSchedule) :
    CronSchedule.fromJson s.toJson = some s := by
  rcases s with ⟨kind, at_ms, every_ms, expr, tz⟩
  rcases at_ms <;> rcases every_ms <;> rcases expr <;> rcases tz <;> rfl

/-- Serialization round trip for `CronPayload`. -/
theorem cronPayload_fromJson_toJson (p : CronPayload) :
    CronPayload.fromJson p.toJson = some p := by
  rcases p with ⟨kind, message, deliver, channel, tto⟩
  rcases channel <;> rcases tto <;> rfl

/-- Serialization round trip for `CronJobState`. -/
theorem cronJobState_fromJson_toJson (s : CronJobState) :
    CronJobState.fromJson s.toJson = some s := by
  rcases s with ⟨nr, lr, ls, le⟩
  rcases nr <;> rcases lr <;> rcases ls <;> rcases le <;> rfl

/-- Serialization round trip for `CronJob`. -/
theorem cronJob_fromJson_toJson (j : CronJob) :
    CronJob.fromJson j.toJson = some j := by
  rcases j with ⟨id, name, enabled, schedule, payload, state, c, u, d⟩
  simp [CronJob.toJson, CronJob.fromJson, Json.get, List.find?, Json.asStr,
    readDefBool, Json.asBool, readDefInt, Json.asInt,
    cronSchedule_fromJson_toJson, cronPayload_fromJson_toJson,
    cronJobState_fromJson_toJson]

/-- Serialization round trip for `CronStore`. -/
theorem cronStore_fromJson_toJson (st : CronStore) :
    CronStore.fromJson st.toJson = some st := by
  rcases st with ⟨version, jobs⟩
  have hjobs : parseJobs (jobs.map CronJob.toJson) = some jobs := by
    induction jobs with
    | nil => rfl
    | cons j rest ih =>
      simp [parseJobs, cronJob_fromJson_toJson, ih]
  simp [CronStore.toJson, CronStore.fromJson, Json.get, List.find?,
    readDefInt, Json.asInt, Json.asArr, hjobs]

/-- Reloading a service from the file just persisted restores the store. -/
theorem cronService_persist_new (svc : CronService) (fs : JFs) :
    (CronService.new (svc.persist fs) svc.store_path).store = svc.store := by
  simp only [CronService.new, CronService.persist, jfs_read_write,
    cronStore_fromJson_toJson, Option.getD]

/-- C8: `add_job` takes the first 8 characters of the generated UUID as the
public id, sets `enabled = true` with empty state, appends the job to the
store and persists; reloading a fresh `CronService` from the same path
yields the identical store — in particular a job identical to the one
`add_job` returned. -/
theorem add_job_round_trip (svc : CronService) (fs : JFs) (now : Int)
    (uuid name : String) (schedule : CronSchedule) (message : String)
    (deliver : Bool) (channel tto : Option String) (dar : Bool) :
    ((svc.add_job fs now uuid name schedule message deliver channel tto dar).1.id
        = String.mk (uuid.data.take 8)) ∧
    ((svc.add_job fs now uuid name schedule message deliver channel tto dar).1.enabled
        = true) ∧
    ((svc.add_job fs now uuid name schedule message deliver channel tto dar).1.state
        = default) ∧
    ((svc.add_job fs now uuid name schedule message deliver channel tto dar).2.1.store.jobs
        = svc.store.jobs
          ++ [(svc.add_job fs now uuid name schedule message deliver channel tto dar).1]) ∧
    ((CronService.new
        (svc.add_job fs now uuid name schedule message deliver channel tto dar).2.2
        svc.store_path).store
      = (svc.add_job fs now uuid name schedule message deliver channel tto dar).2.1.store) ∧
    (svc.add_job fs now uuid name schedule message deliver channel tto dar).1
      ∈ (CronService.new
          (svc.add_job fs now uuid name schedule message deliver channel tto dar).2.2
          svc.store_path).store.jobs := by
  have hadd : svc.add_job fs now uuid name schedule message deliver channel tto dar
      = ((⟨String.mk (uuid.data.take 8), name, true, schedule,
            ⟨"agent_turn", message, deliver, channel, tto⟩,
            default, now, now, dar⟩ : CronJob),
         (⟨svc.store_path, ⟨svc.store.version,
            svc.store.jobs ++ [⟨String.mk (uuid.data.take 8), name, true, schedule,
              ⟨"agent_turn", message, deliver, channel, tto⟩,
              default, now, now, dar⟩]⟩, svc.running⟩ : CronService),
         (⟨svc.store_path, ⟨svc.store.version,
            svc.store.jobs ++ [⟨String.mk (uuid.data.take 8), name, true, schedule,
              ⟨"agent_turn", message, deliver, channel, tto⟩,
              default, now, now, dar⟩]⟩, svc.running⟩ : CronService).persist fs) := rfl
  rw [hadd]
  have h5 : (CronService.new
      ((⟨svc.store_path, ⟨svc.store.version,
          svc.store.jobs ++ [⟨String.mk (uuid.data.take 8), name, true, schedule,
            ⟨"agent_turn", message, deliver, channel, tto⟩,
            default, now, now, dar⟩]⟩, svc.running⟩ : CronService).persist fs)
      svc.store_path).store
      = (⟨svc.store_path, ⟨svc.store.version,
          svc.store.jobs ++ [⟨String.mk (uuid.data.take 8), name, true, schedule,
            ⟨"agent_turn", message, deliver, channel, tto⟩,
            default, now, now, dar⟩]⟩, svc.running⟩ : CronService).store :=
    cronService_persist_new _ fs
  refine ⟨rfl, rfl, rfl, rfl, h5, ?_⟩
  rw [h5]
  simp

/-- Counterexample for C2: at a concrete store path and serialized text,
`CronService::persist` issues a single direct write to the store path and
no rename onto it — there is no write-then-rename — and under the
semantics of a non-atomic write a concurrent reader can observe a strict
left piece of the final contents: a truncated file. -/
theorem cron_persist_not_write_then_rename :
    persistOps "/data/cron/jobs.json" "\x7b \"version\": 1, \"jobs\": [] \x7d"
      = [FsOp.createDirAll (parentDir "/data/cron/jobs.json"),
         FsOp.writeFile "/data/cron/jobs.json"
           "\x7b \"version\": 1, \"jobs\": [] \x7d"] ∧
    renamesOnto
      (persistOps "/data/cron/jobs.json" "\x7b \"version\": 1, \"jobs\": [] \x7d")
      "/data/cron/jobs.json" = false ∧
    "\x7b" ∈ writeObservables "\x7b \"version\": 1, \"jobs\": [] \x7d" ∧
    "\x7b" ≠ "\x7b \"version\": 1, \"jobs\": [] \x7d" := by
  exact ⟨rfl, rfl, by decide, by decide⟩

/-- C2 (amended): every mutating cron-store operation (`add_job`,
`remove_job` when it removes, `enable_job` when it finds the job) persists
the whole serialized store to the store path — afterwards the store file
holds the serialization of the updated in-memory store — but does so with
a single direct write after ensuring the parent directory, not with a
write-then-rename. -/
theorem cron_mutators_persist_whole_store :
    (∀ (svc : CronService) (fs : JFs) (now : Int) (uuid name : String)
        (schedule : CronSchedule) (message : String) (deliver : Bool)
        (channel tto : Option String) (dar : Bool),
      ((svc.add_job fs now uuid name schedule message deliver channel tto dar).2.2).read
          svc.store_path
        = some (CronStore.toJson
            (svc.add_job fs now uuid name schedule message deliver
              channel tto dar).2.1.store)) ∧
    (∀ (svc : CronService) (fs : JFs) (job_id : String),
      (svc.remove_job fs job_id).1 = true →
      ((svc.remove_job fs job_id).2.2).read svc.store_path
        = some (CronStore.toJson (svc.remove_job fs job_id).2.1.store)) ∧
    (∀ (svc : CronService) (fs : JFs) (job_id : String) (enabled : Bool)
        (now : Int) (job : CronJob),
      (svc.enable_job fs job_id enabled now).1 = some job →
      ((svc.enable_job fs job_id enabled now).2.2).read svc.store_path
        = some (CronStore.toJson (svc.enable_job fs job_id enabled now).2.1.store)) ∧
    (∀ (path json : String),
      renamesOnto (persistOps path json) path = false ∧
      FsOp.writeFile path json ∈ persistOps path json) := by
  refine ⟨?_, ?_, ?_, ?_⟩
  · intro svc fs now uuid name schedule message deliver channel tto dar
    simp [CronService.add_job, CronService.persist, jfs_read_write]
  · intro svc fs job_id h
    by_cases hlt : (svc.store.jobs.filter (fun j => j.id != job_id)).length
        < svc.store.jobs.length
    · simp [CronService.remove_job, hlt, CronService.persist, jfs_read_write]
    · simp [CronService.remove_job, hlt] at h
  · intro svc fs job_id enabled now job h
    cases hset : setFirstEnabled svc.store.jobs job_id enabled now with
    | none => simp [CronService.enable_job, hset] at h
    | some pr =>
      simp [CronService.enable_job, hset, CronService.persist, jfs_read_write]
  · intro path json
    exact ⟨rfl, List.Mem.tail _ (List.Mem.head _)⟩

/-- Witness for the amended C2 on a concrete service, store and job. -/
theorem cron_mutators_persist_whole_store_witness :
    ((CronService.mk "jobs.json" ⟨1, []⟩ false).add_job ⟨[]⟩ 0 "00000000-0000"
        "daily" default "tick" false none none false).2.2.read "jobs.json"
      = some (CronStore.toJson
          ((CronService.mk "jobs.json" ⟨1, []⟩ false).add_job ⟨[]⟩ 0
            "00000000-0000" "daily" default "tick" false none none
            false).2.1.store) ∧
    ((CronService.mk "jobs.json"
        ⟨1, [⟨"abc12345", "j", true, default, default, default, 0, 0, false⟩]⟩
        false).remove_job ⟨[]⟩ "abc12345").2.2.read "jobs.json"
      = some (CronStore.toJson
          ((CronService.mk "jobs.json"
            ⟨1, [⟨"abc12345", "j", true, default, default, default, 0, 0, false⟩]⟩
            false).remove_job ⟨[]⟩ "abc12345").2.1.store) ∧
    ((CronService.mk "jobs.json"
        ⟨1, [⟨"abc12345", "j", true, default, default, default, 0, 0, false⟩]⟩
        false).enable_job ⟨[]⟩ "abc12345" false 5).2.2.read "jobs.json"
      = some (CronStore.toJson
          ((CronService.mk "jobs.json"
            ⟨1, [⟨"abc12345", "j", true, default, default, default, 0, 0, false⟩]⟩
            false).enable_job ⟨[]⟩ "abc12345" false 5).2.1.store) ∧
    (renamesOnto (persistOps "jobs.json" "x") "jobs.json" = false ∧
      FsOp.writeFile "jobs.json" "x" ∈ persistOps "jobs.json" "x") := by
  refine ⟨?_, ?_, ?_, ?_⟩
  · exact cron_mutators_persist_whole_store.1 (CronService.mk "jobs.json" ⟨1, []⟩ false)
      ⟨[]⟩ 0 "00000000-0000" "daily" default "tick" false none none false
  · exact cron_mutators_persist_whole_store.2.1 (CronService.mk "jobs.json"
      ⟨1, [⟨"abc12345", "j", true, default, default, default, 0, 0, false⟩]⟩ false)
      ⟨[]⟩ "abc12345" rfl
  · exact cron_mutators_persist_whole_store.2.2.1 (CronService.mk "jobs.json"
      ⟨1, [⟨"abc12345", "j", true, default, default, default, 0, 0, false⟩]⟩ false)
      ⟨[]⟩ "abc12345" false 5
      ⟨"abc12345", "j", false, default, default, default, 0, 5, false⟩ rfl
  · exact cron_mutators_persist_whole_store.2.2.2 "jobs.json" "x"
